import Mathlib

/-!
Shallow embedding of the campus-crate marketplace backend (Express/Mongoose
routes) and proofs of the specified invariants.  Route handlers become pure
functions on explicit store states; Mongo documents become Lean structures;
fallible handlers return `Except ApiError`.  HTTP responses are modelled by
their status code and message.
-/

deriving instance DecidableEq for Except

namespace CampusCrate

/-- User roles, `role ∈ {user, admin, manager}`. -/
inductive Role where
  | user
  | admin
  | manager
deriving DecidableEq

/-- Parse the `role` string from a request body (`['user','admin','manager'].includes(role)`). -/
def roleOfString (s : String) : Option Role :=
  if s = "user" then some Role.user
  else if s = "admin" then some Role.admin
  else if s = "manager" then some Role.manager
  else none

/-- A structured error response: HTTP status code plus message. -/
structure ApiError where
  status : Nat
  msg : String
deriving DecidableEq

/-- A user document (fields relevant to the verified routes).  `password` stands
for the stored credential; hashing is an external collaborator. -/
structure UserRec where
  id : Nat
  role : Role
  isActive : Bool := true
  isBanned : Bool := false
  isVerified : Bool := false
  rating : ℚ := 0
  reviewCount : Nat := 0
  password : String := ""
  banReason : Option String := none
  bannedUntil : Option Int := none
deriving DecidableEq

/-- An item document (fields relevant to the verified routes). -/
structure ItemRec where
  id : Nat
  owner : Nat
  title : String := ""
  description : String := ""
  tags : List String := []
  category : String := ""
  campus : String := ""
  availability : String := "Available"
  dailyRate : ℚ := 0
  isActive : Bool := true
  viewCount : Nat := 0
  createdAt : Int := 0
deriving DecidableEq

/-- Lending-request statuses. -/
inductive LStatus where
  | Pending
  | Accepted
  | Rejected
  | Cancelled
  | Active
  | Completed
deriving DecidableEq

/-- A lending-request document.  Dates are integer day indices. -/
structure LendingReq where
  id : Nat
  item : Nat
  borrower : Nat
  lender : Nat
  startDate : Int
  endDate : Int
  totalCost : ℚ := 0
  status : LStatus
deriving DecidableEq

/-- Review `type` field: which side of the rental the reviewer was on. -/
inductive RType where
  | Borrower
  | Lender
deriving DecidableEq

/-- A review document. -/
structure ReviewRec where
  id : Nat
  lendingRequest : Nat
  item : Nat
  reviewer : Nat
  reviewee : Nat
  rating : ℚ
  comment : String := ""
  rtype : RType
deriving DecidableEq

/-- A message document (booking-thread shape of models/Message.js). -/
structure Msg where
  id : Nat
  lendingRequest : Nat
  sender : Nat
  content : String
  isRead : Bool := false
  readAt : Option Int := none
  createdAt : Int := 0
deriving DecidableEq

/-! ## Admin / moderation routes (src/routes/admin.js) -/

/-- The store state the admin routes act on. -/
structure AdminStore where
  users : List UserRec
  items : List ItemRec
deriving DecidableEq

/-- `User.findById` on the users collection. -/
def findUser (users : List UserRec) (uid : Nat) : Option UserRec :=
  users.find? (fun u => u.id = uid)

/-- `User.findByIdAndUpdate` / `target.save()`: rewrite the documents with the
given id (Mongo ids are unique, so this touches at most one document). -/
def updateUser (users : List UserRec) (uid : Nat) (f : UserRec → UserRec) : List UserRec :=
  users.map (fun u => if u.id = uid then f u else u)

/-- `User.countDocuments({ role: 'manager' })` — counts managers regardless of
`isActive` (admin.js lines 57 and 222). -/
def managerCount (users : List UserRec) : Nat :=
  (users.filter (fun u => u.role = Role.manager)).length

/-- `User.countDocuments({ role: 'admin' })` — used by the delete route
(admin.js line 215), with no `isActive` filter. -/
def adminCount (users : List UserRec) : Nat :=
  (users.filter (fun u => u.role = Role.admin)).length

/-- `User.countDocuments({ role: 'admin', isActive: true })` — used by the
deactivate and ban routes (admin.js lines 135 and 162). -/
def activeAdminCount (users : List UserRec) : Nat :=
  (users.filter (fun u => u.role = Role.admin ∧ u.isActive = true)).length

/-- Count of managers with `isActive = true`; admin.js itself never issues this
query, but the spec claims speak of "active managers", so it is needed to state
them. -/
def activeManagerCount (users : List UserRec) : Nat :=
  (users.filter (fun u => u.role = Role.manager ∧ u.isActive = true)).length

/-- Does the admin-actor guard fire?  `req.user.role === 'admin' &&
(target.role === 'admin' || target.role === 'manager')` (admin.js lines 86,
111, 130, 157, 187, 210). -/
def adminActorBlocked (actorRole : Role) (target : UserRec) : Bool :=
  actorRole = Role.admin ∧ (target.role = Role.admin ∨ target.role = Role.manager)

/-- PUT /api/admin/users/:id/role (admin.js lines 48-77).  The route is behind
the `isManager` middleware, so the actor is a manager and the handler never
reads the actor again. -/
def changeRole (st : AdminStore) (targetId : Nat) (roleStr : String) :
    Except ApiError AdminStore :=
  match roleOfString roleStr with
  | none => .error ⟨400, "Invalid role"⟩
  | some newRole =>
    let lastManagerBlocked : Bool :=
      if newRole = Role.manager then false
      else
        match findUser st.users targetId with
        | some target => target.role = Role.manager ∧ managerCount st.users ≤ 1
        | none => false
    if lastManagerBlocked then
      .error ⟨400, "Cannot demote the last manager"⟩
    else
      match findUser st.users targetId with
      | none => .error ⟨404, "User not found"⟩
      | some _ =>
        .ok { st with users := updateUser st.users targetId (fun u => { u with role := newRole }) }

/-- PUT /api/admin/users/:id/verify (admin.js lines 80-97). -/
def verifyUser (st : AdminStore) (actorRole : Role) (targetId : Nat) :
    Except ApiError AdminStore :=
  match findUser st.users targetId with
  | none => .error ⟨404, "User not found"⟩
  | some target =>
    if adminActorBlocked actorRole target then
      .error ⟨403, "Admins cannot verify admins/managers"⟩
    else
      .ok { st with users := updateUser st.users targetId (fun u => { u with isVerified := true }) }

/-- PUT /api/admin/users/:id/reset-password (admin.js lines 100-122).  The
password is validated before the target is looked up. -/
def resetPassword (st : AdminStore) (actorRole : Role) (targetId : Nat)
    (newPassword : Option String) : Except ApiError AdminStore :=
  match newPassword with
  | none => .error ⟨400, "New password must be at least 8 characters"⟩
  | some pw =>
    if pw.length < 8 then
      .error ⟨400, "New password must be at least 8 characters"⟩
    else
      match findUser st.users targetId with
      | none => .error ⟨404, "User not found"⟩
      | some target =>
        if adminActorBlocked actorRole target then
          .error ⟨403, "Admins cannot reset passwords for admins/managers"⟩
        else
          .ok { st with users := updateUser st.users targetId (fun u => { u with password := pw }) }

/-- PUT /api/admin/users/:id/deactivate (admin.js lines 125-148). -/
def deactivateUser (st : AdminStore) (actorRole : Role) (targetId : Nat) :
    Except ApiError AdminStore :=
  match findUser st.users targetId with
  | none => .error ⟨404, "User not found"⟩
  | some target =>
    if adminActorBlocked actorRole target then
      .error ⟨403, "Admins cannot deactivate admins/managers"⟩
    else if target.role = Role.admin ∧ activeAdminCount st.users ≤ 1 then
      .error ⟨400, "Cannot deactivate the last active admin"⟩
    else
      .ok { st with users := updateUser st.users targetId (fun u => { u with isActive := false }) }

/-- PUT /api/admin/users/:id/ban (admin.js lines 151-179). -/
def banUser (st : AdminStore) (actorRole : Role) (targetId : Nat)
    (reason : Option String) (until_ : Option Int) : Except ApiError AdminStore :=
  match findUser st.users targetId with
  | none => .error ⟨404, "User not found"⟩
  | some target =>
    if adminActorBlocked actorRole target then
      .error ⟨403, "Admins cannot ban admins/managers"⟩
    else if target.role = Role.admin ∧ activeAdminCount st.users ≤ 1 then
      .error ⟨400, "Cannot ban the last active admin"⟩
    else
      .ok { st with users := updateUser st.users targetId (fun u =>
        { u with isBanned := true
                 banReason := some (reason.getD "Policy violation")
                 bannedUntil := until_
                 isActive := false }) }

/-- PUT /api/admin/users/:id/unban (admin.js lines 182-202). -/
def unbanUser (st : AdminStore) (actorRole : Role) (targetId : Nat) :
    Except ApiError AdminStore :=
  match findUser st.users targetId with
  | none => .error ⟨404, "User not found"⟩
  | some target =>
    if adminActorBlocked actorRole target then
      .error ⟨403, "Admins cannot unban admins/managers"⟩
    else
      .ok { st with users := updateUser st.users targetId (fun u =>
        { u with isBanned := false
                 banReason := none
                 bannedUntil := none
                 isActive := true }) }

/-- DELETE /api/admin/users/:id (admin.js lines 205-237): hard delete, after
deactivating the items the target owns.  Note the admin guard uses the count
of all admins and the manager guard the count of all managers, neither
filtered by `isActive`. -/
def deleteUser (st : AdminStore) (actorRole : Role) (targetId : Nat) :
    Except ApiError AdminStore :=
  match findUser st.users targetId with
  | none => .error ⟨404, "User not found"⟩
  | some target =>
    if adminActorBlocked actorRole target then
      .error ⟨403, "Admins cannot delete admins/managers"⟩
    else if target.role = Role.admin ∧ adminCount st.users ≤ 1 then
      .error ⟨400, "Cannot delete the last admin"⟩
    else if target.role = Role.manager ∧ managerCount st.users ≤ 1 then
      .error ⟨400, "Cannot delete the last manager"⟩
    else
      .ok { users := st.users.filter (fun u => u.id ≠ targetId)
            items := st.items.map (fun it =>
              if it.owner = targetId then { it with isActive := false } else it) }

/-! ## Review routes (src/routes/Reviews.js POST / and admin.js DELETE /reviews/:id) -/

/-- The store state the review routes act on. -/
structure ReviewStore where
  users : List UserRec
  requests : List LendingReq
  reviews : List ReviewRec
  nextReviewId : Nat := 1
deriving DecidableEq

/-- `LendingRequest.findById`. -/
def findReq (reqs : List LendingReq) (rid : Nat) : Option LendingReq :=
  reqs.find? (fun r => r.id = rid)

/-- JavaScript `Math.round` on an exact rational: round half away from zero is
half towards plus infinity for the nonnegative values that arise here. -/
def jsRound (q : ℚ) : ℤ := ⌊q + 1 / 2⌋

/-- `Math.round(avgRating * 10) / 10` — rounding to one decimal place. -/
def round1 (q : ℚ) : ℚ := (jsRound (q * 10) : ℚ) / 10

/-- The reviews whose reviewee is `uid` (`Review.find({ reviewee })`). -/
def reviewsOf (reviews : List ReviewRec) (uid : Nat) : List ReviewRec :=
  reviews.filter (fun r => r.reviewee = uid)

/-- `reviews.reduce((sum, r) => sum + r.rating, 0) / reviews.length`, and `0`
for an empty list (the `reviews.length ? ... : 0` guard in admin.js; in
Reviews.js the list is never empty).  Division by zero in ℚ is 0, so the
branch is definitionally redundant but kept to mirror the source. -/
def meanRating (reviews : List ReviewRec) : ℚ :=
  if reviews.length = 0 then 0
  else (reviews.map (fun r => r.rating)).sum / (reviews.length : ℚ)

/-- Request body of POST /api/reviews. -/
structure ReviewBody where
  lendingRequestId : Nat
  revieweeId : Nat
  rating : ℚ
  comment : String := ""
deriving DecidableEq

/-- POST /api/reviews (Reviews.js lines 10-91), acting as `req.userId = callerId`.
Checks, in source order: rating range (not integrality), request existence,
`status === 'Completed'`, caller is borrower or lender, no existing review for
`(lendingRequestId, reviewer)`.  The reviewee is taken from the body as-is.
On success the review is stored and the reviewee documents get
`rating = Math.round(avg * 10) / 10` and `reviewCount` recomputed from the full
current review set. -/
def submitReview (st : ReviewStore) (callerId : Nat) (body : ReviewBody) :
    Except ApiError ReviewStore :=
  if body.rating < 1 ∨ body.rating > 5 then
    .error ⟨400, "Rating must be between 1 and 5"⟩
  else
    match findReq st.requests body.lendingRequestId with
    | none => .error ⟨404, "Lending request not found"⟩
    | some lr =>
      if lr.status ≠ LStatus.Completed then
        .error ⟨400, "Can only review completed rentals"⟩
      else if ¬(lr.borrower = callerId ∨ lr.lender = callerId) then
        .error ⟨403, "Not authorized to review this rental"⟩
      else if st.reviews.any (fun r =>
          r.lendingRequest = body.lendingRequestId ∧ r.reviewer = callerId) then
        .error ⟨400, "You have already reviewed this rental"⟩
      else
        let newReview : ReviewRec :=
          { id := st.nextReviewId
            lendingRequest := body.lendingRequestId
            item := lr.item
            reviewer := callerId
            reviewee := body.revieweeId
            rating := body.rating
            comment := body.comment
            rtype := if lr.borrower = callerId then RType.Borrower else RType.Lender }
        let reviews2 := st.reviews ++ [newReview]
        let userReviews := reviewsOf reviews2 body.revieweeId
        .ok { st with
              reviews := reviews2
              nextReviewId := st.nextReviewId + 1
              users := updateUser st.users body.revieweeId (fun u =>
                { u with rating := round1 (meanRating userReviews)
                         reviewCount := userReviews.length }) }

/-- DELETE /api/admin/reviews/:id (admin.js lines 276-290).  Recomputes the
reviewee aggregate from the remaining reviews, storing the raw average with no
rounding (`rating: avgRating`), `0` when no reviews remain. -/
def adminDeleteReview (st : ReviewStore) (reviewId : Nat) :
    Except ApiError ReviewStore :=
  match st.reviews.find? (fun r => r.id = reviewId) with
  | none => .error ⟨404, "Review not found"⟩
  | some rv =>
    let reviews2 := st.reviews.filter (fun r => r.id ≠ reviewId)
    let userReviews := reviewsOf reviews2 rv.reviewee
    .ok { st with
          reviews := reviews2
          users := updateUser st.users rv.reviewee (fun u =>
            { u with rating := meanRating userReviews
                     reviewCount := userReviews.length }) }

/-! ## Messaging routes (src/routes/Messages.js) -/

/-- The store state the messaging routes act on. -/
structure MsgStore where
  requests : List LendingReq
  messages : List Msg
  nextMsgId : Nat := 1
deriving DecidableEq

/-- JavaScript `String.prototype.trim`, modelled on the character list:
strip leading and trailing whitespace. -/
def jsTrim (s : String) : String :=
  String.mk ((s.data.dropWhile Char.isWhitespace).reverse.dropWhile Char.isWhitespace).reverse

/-- The authenticated caller as produced by the auth middleware. -/
structure Caller where
  id : Nat
  role : Role
  isVerified : Bool
deriving DecidableEq

/-- GET /api/messages/lending/:lendingId (Messages.js lines 159-196), with the
`requireVerified` guard (lines 9-18) in front.  Returns the thread messages
(before the mark-as-read write, as the source responds with the earlier query
result) and the updated store: `updateMany` sets `isRead`/`readAt` on every
message of the thread whose sender is not the caller and that is unread. -/
def getThread (st : MsgStore) (caller : Caller) (lendingId : Nat) (now : Int) :
    Except ApiError (List Msg × MsgStore) :=
  if ¬caller.isVerified then
    .error ⟨403, "Email verification required to chat"⟩
  else
    match findReq st.requests lendingId with
    | none => .error ⟨404, "Lending request not found"⟩
    | some lr =>
      if lr.borrower ≠ caller.id ∧ lr.lender ≠ caller.id then
        .error ⟨403, "Not authorized to view these messages"⟩
      else
        let threadMsgs := st.messages.filter (fun m => m.lendingRequest = lendingId)
        let marked := st.messages.map (fun m =>
          if m.lendingRequest = lendingId ∧ m.sender ≠ caller.id ∧ m.isRead = false then
            { m with isRead := true, readAt := some now }
          else m)
        .ok (threadMsgs, { st with messages := marked })

/-- POST /api/messages (Messages.js lines 199-237), with the `requireVerified`
guard in front.  Content is validated (nonempty after trim) before the
request lookup and the participant check; on success a single new message is
appended, unread. -/
def postMessage (st : MsgStore) (caller : Caller) (lendingRequestId : Nat)
    (content : String) (now : Int) : Except ApiError (Msg × MsgStore) :=
  if ¬caller.isVerified then
    .error ⟨403, "Email verification required to chat"⟩
  else if (jsTrim content).length = 0 then
    .error ⟨400, "Message content is required"⟩
  else
    match findReq st.requests lendingRequestId with
    | none => .error ⟨404, "Lending request not found"⟩
    | some lr =>
      if lr.borrower ≠ caller.id ∧ lr.lender ≠ caller.id then
        .error ⟨403, "Not authorized to send messages"⟩
      else
        let m : Msg :=
          { id := st.nextMsgId
            lendingRequest := lendingRequestId
            sender := caller.id
            content := jsTrim content
            isRead := false
            readAt := none
            createdAt := now }
        .ok (m, { st with messages := st.messages ++ [m], nextMsgId := st.nextMsgId + 1 })

/-- The other participant of a lending request, seen from `uid`. -/
def otherParty (lr : LendingReq) (uid : Nat) : Nat :=
  if lr.borrower = uid then lr.lender else lr.borrower

/-! ## Item routes (src/routes/Items.js) -/

/-- Query-string filters of GET /api/items.  Absent query parameters (and, as
in JavaScript, empty strings, which are falsy) are `none`. -/
structure ItemFilters where
  category : Option String := none
  availability : Option String := none
  campus : Option String := none
  owner : Option Nat := none
  minPrice : Option ℚ := none
  maxPrice : Option ℚ := none
  search : Option String := none
deriving DecidableEq

/-- Case-insensitive literal containment, modelling the `$regex` match with
`$options: 'i'` for a search string without regex metacharacters.  The search
string is nonempty (JavaScript `if (search)` skips the empty string). -/
def textHas (hay needle : String) : Bool :=
  ((hay.toLower).splitOn needle.toLower).length > 1

/-- The Mongo query built by GET /api/items (Items.js lines 22-52): a
conjunction starting from `{ isActive: true }`, with each supplied filter
added, and for `search` an `$or` over title, description and tags. -/
def matchesQuery (f : ItemFilters) (it : ItemRec) : Bool :=
  it.isActive &&
  (match f.category with | none => true | some c => it.category = c) &&
  (match f.availability with | none => true | some a => it.availability = a) &&
  (match f.campus with | none => true | some c => it.campus = c) &&
  (match f.owner with | none => true | some o => it.owner = o) &&
  (match f.minPrice with | none => true | some p => p ≤ it.dailyRate) &&
  (match f.maxPrice with | none => true | some p => it.dailyRate ≤ p) &&
  (match f.search with
   | none => true
   | some s =>
     textHas it.title s || textHas it.description s ||
     it.tags.any (fun t => textHas t s))

/-- GET /api/items (Items.js lines 7-75): filter, sort by the requested key
(the comparator is a parameter — the route sorts by an arbitrary field name),
then paginate with `skip((page-1)*limit)` and `limit`. -/
def listItems (items : List ItemRec) (f : ItemFilters)
    (le : ItemRec → ItemRec → Bool) (page limit : Nat) : List ItemRec :=
  ((((items.filter (matchesQuery f)).mergeSort le).drop ((page - 1) * limit)).take limit)

/-- `Item.findById`. -/
def findItem (items : List ItemRec) (iid : Nat) : Option ItemRec :=
  items.find? (fun it => it.id = iid)

/-- GET /api/items/:id (Items.js lines 92-108): absent and inactive items get
the same 404 response; otherwise the view count is incremented and the item
returned. -/
def getItem (items : List ItemRec) (iid : Nat) :
    Except ApiError (ItemRec × List ItemRec) :=
  match findItem items iid with
  | none => .error ⟨404, "Item not found"⟩
  | some it =>
    if it.isActive = false then
      .error ⟨404, "Item not found"⟩
    else
      let it2 := { it with viewCount := it.viewCount + 1 }
      .ok (it2, items.map (fun x => if x.id = iid then it2 else x))

/-! ## Booking engine

Modelled from the spec: `routes/Lending.js` is loaded by server.js
(`require('./routes/Lending')`) but is not part of the sources; the
lending-request state machine below follows spec section 4.1 (CreateRequest,
Accept, Reject, Cancel, Activate, Complete), with dates as integer day
indices so `ceil(durationInDays) = endDate - startDate`. -/

/-- A status is blocking when it reserves the item calendar:
Pending, Accepted or Active (spec glossary). -/
def blocking : LStatus → Bool
  | LStatus.Pending => true
  | LStatus.Accepted => true
  | LStatus.Active => true
  | _ => false

/-- Half-open interval overlap test from the spec:
`existing.start < new.end AND new.start < existing.end`. -/
def datesOverlap (s1 e1 s2 e2 : Int) : Bool :=
  s1 < e2 ∧ s2 < e1

/-- Modelled from the spec: the conflict check of section 4.1 — is there a
request on the same item, in a blocking status, overlapping `[s, e)`?  At
Accept time the request being accepted is excluded (it is itself Pending). -/
def hasConflict (reqs : List LendingReq) (item : Nat) (s e : Int)
    (excludeId : Option Nat) : Bool :=
  reqs.any (fun r =>
    (match excludeId with | some i => r.id ≠ i | none => true) &&
    r.item = item && blocking r.status &&
    datesOverlap r.startDate r.endDate s e)

/-- The store state the booking engine acts on. -/
structure BookingState where
  items : List ItemRec
  requests : List LendingReq
  nextId : Nat := 1
deriving DecidableEq

/-- Modelled from the spec: CreateRequest (section 4.1).  Preconditions: item
exists and is active, borrower is not the owner, `startDate < endDate`,
`startDate ≥ now`; then the conflict check; on success a new Pending request
with `totalCost = dailyRate × (endDate - startDate)`. -/
def createRequest (st : BookingState) (borrowerId itemId : Nat)
    (s e now : Int) : Except ApiError BookingState :=
  match findItem st.items itemId with
  | none => .error ⟨404, "Item not found"⟩
  | some it =>
    if it.isActive = false then
      .error ⟨404, "Item not found"⟩
    else if it.owner = borrowerId then
      .error ⟨400, "You cannot borrow your own item"⟩
    else if e ≤ s then
      .error ⟨400, "End date must be after start date"⟩
    else if s < now then
      .error ⟨400, "Start date cannot be in the past"⟩
    else if hasConflict st.requests itemId s e none then
      .error ⟨409, "Item is already booked for these dates"⟩
    else
      .ok { st with
            requests := st.requests ++
              [{ id := st.nextId
                 item := itemId
                 borrower := borrowerId
                 lender := it.owner
                 startDate := s
                 endDate := e
                 totalCost := it.dailyRate * ((e - s : Int) : ℚ)
                 status := LStatus.Pending }]
            nextId := st.nextId + 1 }

/-- Rewrite the status of the request with the given id. -/
def setStatus (reqs : List LendingReq) (rid : Nat) (newStatus : LStatus) :
    List LendingReq :=
  reqs.map (fun r => if r.id = rid then { r with status := newStatus } else r)

/-- Modelled from the spec: Accept (section 4.1).  Only the lender of a
Pending request may accept, and the conflict check is re-run at transition
time against the other blocking requests; a conflict fails with the
ConflictError (409) instead of accepting two overlapping bookings. -/
def acceptRequest (st : BookingState) (lenderId requestId : Nat) :
    Except ApiError BookingState :=
  match findReq st.requests requestId with
  | none => .error ⟨404, "Lending request not found"⟩
  | some r =>
    if r.lender ≠ lenderId then
      .error ⟨403, "Only the lender may accept this request"⟩
    else if r.status ≠ LStatus.Pending then
      .error ⟨400, "Request is not pending"⟩
    else if hasConflict st.requests r.item r.startDate r.endDate (some requestId) then
      .error ⟨409, "Item is already booked for these dates"⟩
    else
      .ok { st with requests := setStatus st.requests requestId LStatus.Accepted }

/-- Modelled from the spec: Reject (section 4.1) — lender only, Pending only. -/
def rejectRequest (st : BookingState) (lenderId requestId : Nat) :
    Except ApiError BookingState :=
  match findReq st.requests requestId with
  | none => .error ⟨404, "Lending request not found"⟩
  | some r =>
    if r.lender ≠ lenderId then
      .error ⟨403, "Only the lender may reject this request"⟩
    else if r.status ≠ LStatus.Pending then
      .error ⟨400, "Request is not pending"⟩
    else
      .ok { st with requests := setStatus st.requests requestId LStatus.Rejected }

/-- Modelled from the spec: Cancel (section 4.1) — either party, while the
status is Pending or Accepted. -/
def cancelRequest (st : BookingState) (userId requestId : Nat) :
    Except ApiError BookingState :=
  match findReq st.requests requestId with
  | none => .error ⟨404, "Lending request not found"⟩
  | some r =>
    if r.borrower ≠ userId ∧ r.lender ≠ userId then
      .error ⟨403, "Only a participant may cancel this request"⟩
    else if ¬(r.status = LStatus.Pending ∨ r.status = LStatus.Accepted) then
      .error ⟨400, "Request can no longer be cancelled"⟩
    else
      .ok { st with requests := setStatus st.requests requestId LStatus.Cancelled }

/-- Modelled from the spec: the Accepted → Active transition of the section
4.1 state machine, triggered once the start date is reached. -/
def activateRequest (st : BookingState) (requestId : Nat) (now : Int) :
    Except ApiError BookingState :=
  match findReq st.requests requestId with
  | none => .error ⟨404, "Lending request not found"⟩
  | some r =>
    if r.status ≠ LStatus.Accepted then
      .error ⟨400, "Request is not accepted"⟩
    else if now < r.startDate then
      .error ⟨400, "Rental has not started yet"⟩
    else
      .ok { st with requests := setStatus st.requests requestId LStatus.Active }

/-- Modelled from the spec: Complete (section 4.1) — once the end date has
passed and the status is Active. -/
def completeRequest (st : BookingState) (requestId : Nat) (now : Int) :
    Except ApiError BookingState :=
  match findReq st.requests requestId with
  | none => .error ⟨404, "Lending request not found"⟩
  | some r =>
    if r.status ≠ LStatus.Active then
      .error ⟨400, "Request is not active"⟩
    else if now < r.endDate then
      .error ⟨400, "Rental has not ended yet"⟩
    else
      .ok { st with requests := setStatus st.requests requestId LStatus.Completed }

/-- One atomic booking-engine step: any operation that succeeds, plus
arbitrary catalog changes (item routes never touch the requests). -/
inductive BStep : BookingState → BookingState → Prop where
  | create (st st' : BookingState) (b i : Nat) (s e now : Int)
      (h : createRequest st b i s e now = .ok st') : BStep st st'
  | accept (st st' : BookingState) (l rid : Nat)
      (h : acceptRequest st l rid = .ok st') : BStep st st'
  | reject (st st' : BookingState) (l rid : Nat)
      (h : rejectRequest st l rid = .ok st') : BStep st st'
  | cancel (st st' : BookingState) (u rid : Nat)
      (h : cancelRequest st u rid = .ok st') : BStep st st'
  | activate (st st' : BookingState) (rid : Nat) (now : Int)
      (h : activateRequest st rid now = .ok st') : BStep st st'
  | complete (st st' : BookingState) (rid : Nat) (now : Int)
      (h : completeRequest st rid now = .ok st') : BStep st st'
  | catalog (st : BookingState) (items' : List ItemRec) :
      BStep st { st with items := items' }

/-- The empty initial state. -/
def initBooking : BookingState := { items := [], requests := [], nextId := 1 }

/-- States reachable from the empty state by booking-engine steps. -/
inductive ReachableB : BookingState → Prop where
  | init : ReachableB initBooking
  | step {st st' : BookingState} : ReachableB st → BStep st st' → ReachableB st'

/-- Two requests overlap when they are on the same item and their date ranges
intersect (half-open). -/
def reqsOverlap (r1 r2 : LendingReq) : Prop :=
  r1.item = r2.item ∧ datesOverlap r1.startDate r1.endDate r2.startDate r2.endDate = true

/-- Conflict-freedom of a request list: no two distinct requests on the same
item are both in a blocking status with overlapping date ranges. -/
def ConflictFreeL (reqs : List LendingReq) : Prop :=
  ∀ r1 ∈ reqs, ∀ r2 ∈ reqs,
    r1.id ≠ r2.id → blocking r1.status = true → blocking r2.status = true →
    ¬reqsOverlap r1 r2

/-- Conflict-freedom of a booking state. -/
def ConflictFree (st : BookingState) : Prop :=
  ConflictFreeL st.requests

/-- Pairwise-distinct request ids. -/
def UniqueIds (reqs : List LendingReq) : Prop :=
  reqs.Pairwise (fun a b => a.id ≠ b.id)

/-- Auxiliary invariant: request ids are bounded by the id counter (so fresh
ids are really fresh) and pairwise distinct. -/
def IdsOk (st : BookingState) : Prop :=
  (∀ r ∈ st.requests, r.id < st.nextId) ∧ UniqueIds st.requests

/-- The full booking invariant. -/
def BookingInv (st : BookingState) : Prop :=
  IdsOk st ∧ ConflictFree st

/-- Did the handler succeed? -/
def ExceptOk {α : Type} : Except ApiError α → Bool
  | .ok _ => true
  | .error _ => false

/-- The HTTP status of the response when the handler failed. -/
def errStatus {α : Type} : Except ApiError α → Option Nat
  | .ok _ => none
  | .error e => some e.status

/-- The non-integral rating 9/2 = 4.5, given directly in lowest terms. -/
def ninehalves : ℚ := ⟨9, 2, by norm_num, by norm_num⟩

/-- A completed rental: borrower `b` borrowed item `b` from lender 10. -/
def doneReq (b : Nat) : LendingReq :=
  { id := b, item := b, borrower := b, lender := 10,
    startDate := 0, endDate := 1, status := LStatus.Completed }

/-- Four completed rentals of user 10, no reviews yet. -/
def c2Store0 : ReviewStore :=
  ⟨[{ id := 10, role := Role.user }],
   [doneReq 1, doneReq 2, doneReq 3, doneReq 4], [], 1⟩

/-- The review sequence of the C2 scenario: each borrower reviews user 10
(ratings 4, 4, 5, 5), then the admin deletes the fourth review. -/
def c2Run : Except ApiError ReviewStore :=
  (submitReview c2Store0 1 ⟨1, 10, 4, ""⟩).bind fun s1 =>
  (submitReview s1 2 ⟨2, 10, 4, ""⟩).bind fun s2 =>
  (submitReview s2 3 ⟨3, 10, 5, ""⟩).bind fun s3 =>
  (submitReview s3 4 ⟨4, 10, 5, ""⟩).bind fun s4 =>
  adminDeleteReview s4 4

/-- User 10's stored rating after the C2 scenario. -/
def c2FinalRating : Option ℚ :=
  match c2Run with
  | .ok st => (findUser st.users 10).map (fun u => u.rating)
  | .error _ => none

/-- The true mean of user 10's stored reviews after the C2 scenario. -/
def c2FinalMean : Option ℚ :=
  match c2Run with
  | .ok st => some (meanRating (reviewsOf st.reviews 10))
  | .error _ => none

/-- A one-request store for exercising a single review submission. -/
def c2wStore : ReviewStore :=
  ⟨[{ id := 10, role := Role.user }], [doneReq 1], [], 1⟩

/-- The review that submission stores. -/
def c2wReview : ReviewRec :=
  { id := 1, lendingRequest := 1, item := 1, reviewer := 1, reviewee := 10,
    rating := 4, rtype := RType.Borrower }

/-- The store resulting from that submission. -/
def c2wResult : ReviewStore :=
  ⟨[{ id := 10, role := Role.user,
      rating := round1 (meanRating (reviewsOf [c2wReview] 10)),
      reviewCount := (reviewsOf [c2wReview] 10).length }],
   [doneReq 1], [c2wReview], 2⟩

/-- A store holding one review of user 10, ready for deletion. -/
def c2dStore : ReviewStore :=
  ⟨[{ id := 10, role := Role.user, rating := 4, reviewCount := 1 }],
   [doneReq 1], [c2wReview], 2⟩

/-- The store resulting from deleting that review. -/
def c2dResult : ReviewStore :=
  ⟨[{ id := 10, role := Role.user, rating := 0, reviewCount := 0 }],
   [doneReq 1], [], 2⟩

/-- Review k of user 10 with the given rating, as stored by the k-th
submission of the C2 scenario. -/
def c2rev (k : Nat) (q : ℚ) : ReviewRec :=
  { id := k, lendingRequest := k, item := k, reviewer := k, reviewee := 10,
    rating := q, rtype := RType.Borrower }

/-- The reviews remaining after the C2 scenario (ratings 4, 4, 5). -/
def c2FinalReviews : List ReviewRec := [c2rev 1 4, c2rev 2 4, c2rev 3 5]

/-- The store the C2 scenario ends in. -/
def c2Final : ReviewStore :=
  ⟨[{ id := 10, role := Role.user,
      rating := meanRating (reviewsOf c2FinalReviews 10),
      reviewCount := (reviewsOf c2FinalReviews 10).length }],
   [doneReq 1, doneReq 2, doneReq 3, doneReq 4], c2FinalReviews, 5⟩

/-- An accepted rental between borrower 1 and lender 2. -/
def c9Req : LendingReq :=
  { id := 1, item := 1, borrower := 1, lender := 2,
    startDate := 0, endDate := 3, status := LStatus.Accepted }

/-- An unread message from the lender. -/
def c9MsgA : Msg :=
  { id := 1, lendingRequest := 1, sender := 2, content := "hi", createdAt := 1 }

/-- An unread message from the borrower. -/
def c9MsgB : Msg :=
  { id := 2, lendingRequest := 1, sender := 1, content := "yo", createdAt := 2 }

/-- An already-read message from the lender. -/
def c9MsgC : Msg :=
  { id := 3, lendingRequest := 1, sender := 2, content := "old",
    isRead := true, readAt := some 2, createdAt := 0 }

/-- The message store of the C9 witness scenario. -/
def c9Store : MsgStore := ⟨[c9Req], [c9MsgA, c9MsgB, c9MsgC], 4⟩

/-- The message the witness post appends. -/
def c9NewMsg : Msg :=
  { id := 4, lendingRequest := 1, sender := 1, content := "hello", createdAt := 6 }

/-- A Pending booking of item 1 for days [0, 2). -/
def c1r1 : LendingReq :=
  { id := 1, item := 1, borrower := 2, lender := 3,
    startDate := 0, endDate := 2, status := LStatus.Pending }

/-- A conflicting Pending booking of item 1 for days [1, 3). -/
def c1r2 : LendingReq :=
  { id := 2, item := 1, borrower := 4, lender := 3,
    startDate := 1, endDate := 3, status := LStatus.Pending }

/-- A state with two conflicting Pending requests, as produced by a race
between two CreateRequest calls. -/
def c1St : BookingState := ⟨[], [c1r1, c1r2], 3⟩

/-- A state where request 1 was accepted while request 2 is still Pending. -/
def c1StB : BookingState := ⟨[], [c1r2, { c1r1 with status := LStatus.Accepted }], 3⟩

/-! ## Theorems -/

/-- C5: for every mutating moderation action on a user (verify,
reset-password, deactivate, ban, unban, delete), if the actor role is admin
and the target role is admin or manager, the operation fails with the 403
Forbidden response; the error return means no store write happens, so the
target record is unchanged.  (For reset-password the request must carry a
well-formed password, since malformed input is rejected with 400 before the
target is even looked up.) -/
theorem admin_actor_cannot_touch_privileged_targets
    (st : AdminStore) (tid : Nat) (t : UserRec)
    (hfind : findUser st.users tid = some t)
    (hrole : t.role = Role.admin ∨ t.role = Role.manager) :
    verifyUser st Role.admin tid =
      .error ⟨403, "Admins cannot verify admins/managers"⟩ ∧
    (∀ pw : String, 8 ≤ pw.length →
      resetPassword st Role.admin tid (some pw) =
        .error ⟨403, "Admins cannot reset passwords for admins/managers"⟩) ∧
    deactivateUser st Role.admin tid =
      .error ⟨403, "Admins cannot deactivate admins/managers"⟩ ∧
    (∀ (reason : Option String) (until_ : Option Int),
      banUser st Role.admin tid reason until_ =
        .error ⟨403, "Admins cannot ban admins/managers"⟩) ∧
    unbanUser st Role.admin tid =
      .error ⟨403, "Admins cannot unban admins/managers"⟩ ∧
    deleteUser st Role.admin tid =
      .error ⟨403, "Admins cannot delete admins/managers"⟩ := by
  have hblock : adminActorBlocked Role.admin t = true := by
    simp [adminActorBlocked, hrole]
  refine ⟨?_, ?_, ?_, ?_, ?_, ?_⟩
  · simp [verifyUser, hfind, hblock]
  · intro pw hpw
    simp [resetPassword, hfind, hblock, Nat.not_lt.mpr hpw]
  · simp [deactivateUser, hfind, hblock]
  · intro reason until_
    simp [banUser, hfind, hblock]
  · simp [unbanUser, hfind, hblock]
  · simp [deleteUser, hfind, hblock]

/-- C5 witness: a concrete store with an admin actor and an admin target —
all six operations return 403. -/
theorem admin_actor_cannot_touch_privileged_targets_witness :
    verifyUser ⟨[{ id := 1, role := Role.admin }], []⟩ Role.admin 1 =
      .error ⟨403, "Admins cannot verify admins/managers"⟩ ∧
    deleteUser ⟨[{ id := 1, role := Role.admin }], []⟩ Role.admin 1 =
      .error ⟨403, "Admins cannot delete admins/managers"⟩ := by
  have h := admin_actor_cannot_touch_privileged_targets
    ⟨[{ id := 1, role := Role.admin }], []⟩ 1 { id := 1, role := Role.admin }
    (by decide) (Or.inl rfl)
  exact ⟨h.1, h.2.2.2.2.2⟩

/-- C3 counterexample: the claim says demoting a manager fails whenever the
count of *active* managers is at most 1; but with two managers of whom one is
deactivated (active count 1), the code counts both (`countDocuments({ role:
'manager' })` has no `isActive` filter) and the demotion succeeds. -/
theorem c3_active_manager_count_counterexample :
    activeManagerCount
      [{ id := 1, role := Role.manager },
       { id := 2, role := Role.manager, isActive := false }] = 1 ∧
    ExceptOk (changeRole
      ⟨[{ id := 1, role := Role.manager },
        { id := 2, role := Role.manager, isActive := false }], []⟩ 1 "user") = true := by
  decide

/-- C3 amended: demoting (changing the role away from manager) or deleting a
manager fails with the last-manager InvariantViolation (400) exactly when the
count of managers — active or not — is at most 1, leaving the store
untouched; with at least 2 managers the demotion succeeds, and so does
deletion by a manager actor. -/
theorem last_manager_guard (st : AdminStore) (tid : Nat) (t : UserRec)
    (hfind : findUser st.users tid = some t)
    (hmgr : t.role = Role.manager) :
    (∀ (roleStr : String) (r : Role), roleOfString roleStr = some r →
      r ≠ Role.manager →
      (managerCount st.users ≤ 1 →
        changeRole st tid roleStr = .error ⟨400, "Cannot demote the last manager"⟩) ∧
      (2 ≤ managerCount st.users → ExceptOk (changeRole st tid roleStr) = true)) ∧
    (managerCount st.users ≤ 1 →
      deleteUser st Role.manager tid = .error ⟨400, "Cannot delete the last manager"⟩) ∧
    (2 ≤ managerCount st.users →
      ExceptOk (deleteUser st Role.manager tid) = true) := by
  have hnotadmin : t.role ≠ Role.admin := by rw [hmgr]; intro h; cases h
  have hblock : adminActorBlocked Role.manager t = false := by
    simp [adminActorBlocked]
  refine ⟨?_, ?_, ?_⟩
  · intro roleStr r hparse hr
    constructor
    · intro hcount
      simp [changeRole, hparse, hfind, hr, hmgr, hcount]
    · intro hcount
      have : ¬managerCount st.users ≤ 1 := by omega
      simp [changeRole, hparse, hfind, hr, hmgr, this, ExceptOk]
  · intro hcount
    simp [deleteUser, hfind, hblock, hnotadmin, hmgr, hcount]
  · intro hcount
    have : ¬managerCount st.users ≤ 1 := by omega
    simp [deleteUser, hfind, hblock, hnotadmin, hmgr, this, ExceptOk]

/-- C3 amended witness: with two managers (both active), demoting one and
deleting one (by a manager actor) both succeed, and with a single manager both
fail with the 400 guard. -/
theorem last_manager_guard_witness :
    ExceptOk (changeRole
      ⟨[{ id := 1, role := Role.manager }, { id := 2, role := Role.manager }], []⟩
      1 "user") = true ∧
    changeRole ⟨[{ id := 1, role := Role.manager }], []⟩ 1 "user" =
      .error ⟨400, "Cannot demote the last manager"⟩ := by
  have h2 := last_manager_guard
    ⟨[{ id := 1, role := Role.manager }, { id := 2, role := Role.manager }], []⟩
    1 { id := 1, role := Role.manager } (by decide) rfl
  have h1 := last_manager_guard
    ⟨[{ id := 1, role := Role.manager }], []⟩
    1 { id := 1, role := Role.manager } (by decide) rfl
  refine ⟨((h2.1 "user" Role.user rfl (by decide)).2 (by decide)), ?_⟩
  exact (h1.1 "user" Role.user rfl (by decide)).1 (by decide)

/-- C4 counterexample: the claim says deleting an admin fails whenever the
count of *active* admins is at most 1; but with two admins of whom one is
deactivated (active count 1), the delete route counts both
(`countDocuments({ role: 'admin' })`, no `isActive` filter) and deletes the
last active admin. -/
theorem c4_active_admin_count_counterexample :
    activeAdminCount
      [{ id := 1, role := Role.admin },
       { id := 2, role := Role.admin, isActive := false }] = 1 ∧
    ExceptOk (deleteUser
      ⟨[{ id := 1, role := Role.admin },
        { id := 2, role := Role.admin, isActive := false }], []⟩ Role.manager 1) = true := by
  decide

/-- C4 amended: for a manager actor and an admin target, deactivate and ban
fail with the last-admin InvariantViolation (400) exactly when the count of
*active* admins is at most 1, while delete uses the count of *all* admins;
with the respective count at least 2 each operation succeeds.  Role demotion
is not subject to any admin-count rule: changing an admin target to any valid
non-manager role succeeds regardless of the admin counts. -/
theorem last_admin_guard (st : AdminStore) (tid : Nat) (t : UserRec)
    (hfind : findUser st.users tid = some t)
    (hadm : t.role = Role.admin) :
    (activeAdminCount st.users ≤ 1 →
      deactivateUser st Role.manager tid =
        .error ⟨400, "Cannot deactivate the last active admin"⟩ ∧
      (∀ (reason : Option String) (until_ : Option Int),
        banUser st Role.manager tid reason until_ =
          .error ⟨400, "Cannot ban the last active admin"⟩)) ∧
    (2 ≤ activeAdminCount st.users →
      ExceptOk (deactivateUser st Role.manager tid) = true ∧
      (∀ (reason : Option String) (until_ : Option Int),
        ExceptOk (banUser st Role.manager tid reason until_) = true)) ∧
    (adminCount st.users ≤ 1 →
      deleteUser st Role.manager tid = .error ⟨400, "Cannot delete the last admin"⟩) ∧
    (2 ≤ adminCount st.users → ExceptOk (deleteUser st Role.manager tid) = true) ∧
    (∀ (roleStr : String) (r : Role), roleOfString roleStr = some r →
      r ≠ Role.manager → ExceptOk (changeRole st tid roleStr) = true) := by
  have hnotmgr : t.role ≠ Role.manager := by rw [hadm]; intro h; cases h
  have hblock : adminActorBlocked Role.manager t = false := by
    simp [adminActorBlocked]
  refine ⟨?_, ?_, ?_, ?_, ?_⟩
  · intro hcount
    constructor
    · simp [deactivateUser, hfind, hblock, hadm, hcount]
    · intro reason until_
      simp [banUser, hfind, hblock, hadm, hcount]
  · intro hcount
    have hn : ¬activeAdminCount st.users ≤ 1 := by omega
    constructor
    · simp [deactivateUser, hfind, hblock, hadm, hn, ExceptOk]
    · intro reason until_
      simp [banUser, hfind, hblock, hadm, hn, ExceptOk]
  · intro hcount
    simp [deleteUser, hfind, hblock, hadm, hcount]
  · intro hcount
    have hn : ¬adminCount st.users ≤ 1 := by omega
    simp [deleteUser, hfind, hblock, hadm, hn, hnotmgr, ExceptOk]
  · intro roleStr r hparse hr
    simp [changeRole, hparse, hfind, hnotmgr, hr, ExceptOk]

/-- C4 amended witness: a single active admin cannot be deactivated (400),
but with two active admins deactivation succeeds; demoting the sole admin to
user still succeeds (no admin-count rule on role change). -/
theorem last_admin_guard_witness :
    deactivateUser ⟨[{ id := 1, role := Role.admin }], []⟩ Role.manager 1 =
      .error ⟨400, "Cannot deactivate the last active admin"⟩ ∧
    ExceptOk (deactivateUser
      ⟨[{ id := 1, role := Role.admin }, { id := 2, role := Role.admin }], []⟩
      Role.manager 1) = true ∧
    ExceptOk (changeRole ⟨[{ id := 1, role := Role.admin }], []⟩ 1 "user") = true := by
  have h1 := last_admin_guard ⟨[{ id := 1, role := Role.admin }], []⟩
    1 { id := 1, role := Role.admin } (by decide) rfl
  have h2 := last_admin_guard
    ⟨[{ id := 1, role := Role.admin }, { id := 2, role := Role.admin }], []⟩
    1 { id := 1, role := Role.admin } (by decide) rfl
  refine ⟨(h1.1 (by decide)).1, ((h2.2.1 (by decide)).1), ?_⟩
  exact h1.2.2.2.2 "user" Role.user rfl (by decide)

/-- C6 counterexample: a second review for the same `(requestId, reviewer)`
is rejected with HTTP 400 ("You have already reviewed this rental"), not with
the 409-equivalent ConflictError the claim names. -/
theorem c6_duplicate_review_status_counterexample :
    submitReview
      ⟨[{ id := 1, role := Role.user }, { id := 2, role := Role.user }],
       [{ id := 1, item := 1, borrower := 1, lender := 2,
          startDate := 0, endDate := 1, status := LStatus.Completed }],
       [{ id := 1, lendingRequest := 1, item := 1, reviewer := 1, reviewee := 2,
          rating := 5, rtype := RType.Borrower }], 2⟩
      1 ⟨1, 2, 4, ""⟩ =
      .error ⟨400, "You have already reviewed this rental"⟩ ∧
    (400 : Nat) ≠ 409 := by
  constructor
  · decide
  · decide

/-- C6 amended: when the referenced request exists, the reviewer is a
participant, and a review by that reviewer for that request is already
stored, any second SubmitReview fails with an HTTP 400 error (hence no review
is persisted and the reviewee aggregate is untouched) — but with status 400,
not the 409-equivalent ConflictError. -/
theorem duplicate_review_always_fails (st : ReviewStore) (callerId : Nat)
    (body : ReviewBody) (lr : LendingReq)
    (hreq : findReq st.requests body.lendingRequestId = some lr)
    (hinv : lr.borrower = callerId ∨ lr.lender = callerId)
    (hprior : st.reviews.any (fun r =>
      r.lendingRequest = body.lendingRequestId ∧ r.reviewer = callerId) = true) :
    errStatus (submitReview st callerId body) = some 400 := by
  unfold submitReview
  rw [hreq]
  dsimp only
  by_cases h1 : body.rating < 1 ∨ body.rating > 5
  · simp [h1, errStatus]
  · by_cases h2 : lr.status ≠ LStatus.Completed
    · simp [h1, h2, errStatus]
    · simp only [List.any_eq_true, decide_eq_true_eq] at hprior
      simp [h1, h2, eq_true hinv, hprior, errStatus]

/-- C6 amended witness: the concrete duplicate submission above fails with
status 400. -/
theorem duplicate_review_always_fails_witness :
    errStatus (submitReview
      ⟨[{ id := 1, role := Role.user }, { id := 2, role := Role.user }],
       [{ id := 1, item := 1, borrower := 1, lender := 2,
          startDate := 0, endDate := 1, status := LStatus.Completed }],
       [{ id := 1, lendingRequest := 1, item := 1, reviewer := 1, reviewee := 2,
          rating := 5, rtype := RType.Borrower }], 2⟩
      1 ⟨1, 2, 4, ""⟩) = some 400 :=
  duplicate_review_always_fails _ 1 ⟨1, 2, 4, ""⟩
    { id := 1, item := 1, borrower := 1, lender := 2,
      startDate := 0, endDate := 1, status := LStatus.Completed }
    (by decide) (Or.inl rfl) (by decide)

/-- C7 counterexample: SubmitReview is claimed to fail unless the supplied
reviewee is the other named party and the rating is an integer in [1,5]; but
the route never checks either.  Here the borrower reviews a completed rental
naming *themselves* as reviewee, with the non-integral rating 9/2, and the
submission succeeds. -/
theorem c7_missing_precondition_checks_counterexample :
    ExceptOk (submitReview
      ⟨[{ id := 1, role := Role.user }, { id := 2, role := Role.user }],
       [{ id := 1, item := 1, borrower := 1, lender := 2,
          startDate := 0, endDate := 1, status := LStatus.Completed }],
       [], 1⟩
      1 ⟨1, 1, ninehalves, ""⟩) = true ∧
    otherParty
      { id := 1, item := 1, borrower := 1, lender := 2,
        startDate := 0, endDate := 1, status := LStatus.Completed } 1 = 2 ∧
    (1 : Nat) ≠ 2 ∧
    ninehalves.den ≠ 1 := by
  refine ⟨by decide, by decide, by decide, by decide⟩

/-- C7 amended: SubmitReview succeeds exactly when the rating lies in the
rational interval [1,5] (integrality is not checked), the referenced request
exists with status Completed, the reviewer is the borrower or the lender, and
no prior review by this reviewer for this request is stored; the supplied
reviewee is not validated at all (it need not be the other party).  Failure
returns an error, so nothing is persisted and no aggregate changes. -/
theorem submitReview_ok_iff (st : ReviewStore) (callerId : Nat) (body : ReviewBody) :
    ExceptOk (submitReview st callerId body) = true ↔
      ¬(body.rating < 1 ∨ body.rating > 5) ∧
      ∃ lr, findReq st.requests body.lendingRequestId = some lr ∧
        lr.status = LStatus.Completed ∧
        (lr.borrower = callerId ∨ lr.lender = callerId) ∧
        st.reviews.any (fun r =>
          r.lendingRequest = body.lendingRequestId ∧ r.reviewer = callerId) = false := by
  unfold submitReview
  cases hreq : findReq st.requests body.lendingRequestId with
  | none =>
    split_ifs <;> simp [ExceptOk]
  | some lr =>
    dsimp only
    split_ifs with h1 h2 h3 h4 <;>
      simp_all [ExceptOk]

/-- Membership in an id-targeted update: an element of the updated list
bearing the targeted id is the image of an original element with that id,
provided the update preserves ids. -/
theorem mem_updateUser_eq (users : List UserRec) (uid : Nat) (f : UserRec → UserRec)
    (u : UserRec) (hu : u ∈ updateUser users uid f)
    (hid : u.id = uid) : ∃ v ∈ users, v.id = uid ∧ u = f v := by
  unfold updateUser at hu
  rcases List.mem_map.mp hu with ⟨v, hv, hv2⟩
  by_cases hvid : v.id = uid
  · refine ⟨v, hv, hvid, ?_⟩
    rw [← hv2, if_pos hvid]
  · rw [if_neg hvid] at hv2
    rw [← hv2] at hid
    exact absurd hid hvid

/-- C2 amended: every successful review submission stores, on every user
record bearing the reviewee id, `rating = round1(mean)` and `reviewCount`
recomputed from the full current set of that reviewee's reviews; every
successful admin review deletion stores the *raw, unrounded* mean (0 when no
reviews remain) and the recomputed count — deletion does not round to one
decimal, which is the sole divergence from the claim. -/
theorem review_aggregates_recomputed :
    (∀ (st : ReviewStore) (callerId : Nat) (body : ReviewBody) (st' : ReviewStore),
      submitReview st callerId body = .ok st' →
      ∀ u ∈ st'.users, u.id = body.revieweeId →
        u.rating = round1 (meanRating (reviewsOf st'.reviews body.revieweeId)) ∧
        u.reviewCount = (reviewsOf st'.reviews body.revieweeId).length) ∧
    (∀ (st : ReviewStore) (reviewId : Nat) (rv : ReviewRec) (st' : ReviewStore),
      st.reviews.find? (fun r => r.id = reviewId) = some rv →
      adminDeleteReview st reviewId = .ok st' →
      ∀ u ∈ st'.users, u.id = rv.reviewee →
        u.rating = meanRating (reviewsOf st'.reviews rv.reviewee) ∧
        u.reviewCount = (reviewsOf st'.reviews rv.reviewee).length) := by
  constructor
  · intro st callerId body st' h u hu hid
    unfold submitReview at h
    split at h
    · exact absurd h (by simp)
    · split at h
      · exact absurd h (by simp)
      · split at h
        · exact absurd h (by simp)
        · split at h
          · exact absurd h (by simp)
          · split at h
            · exact absurd h (by simp)
            · injection h with h2
              subst h2
              dsimp only at hu hid ⊢
              rcases mem_updateUser_eq _ _ _ u hu hid with ⟨v, hv, hvid, rfl⟩
              exact ⟨rfl, rfl⟩
  · intro st reviewId rv st' hfind h u hu hid
    unfold adminDeleteReview at h
    rw [hfind] at h
    injection h with h2
    subst h2
    dsimp only at hu hid ⊢
    rcases mem_updateUser_eq _ _ _ u hu hid with ⟨v, hv, hvid, rfl⟩
    exact ⟨rfl, rfl⟩

/-- C2 amended witness: a concrete submission stores the rounded mean on user
10, and a concrete deletion stores the recomputed (here empty, hence 0)
aggregate. -/
theorem review_aggregates_recomputed_witness :
    ({ id := 10, role := Role.user,
       rating := round1 (meanRating (reviewsOf [c2wReview] 10)),
       reviewCount := (reviewsOf [c2wReview] 10).length } : UserRec).rating =
      round1 (meanRating (reviewsOf c2wResult.reviews 10)) ∧
    ({ id := 10, role := Role.user, rating := 0, reviewCount := 0 } : UserRec).rating =
      meanRating (reviewsOf c2dResult.reviews 10) := by
  have h1 := review_aggregates_recomputed.1 c2wStore 1 ⟨1, 10, 4, ""⟩ c2wResult
    rfl
    { id := 10, role := Role.user,
      rating := round1 (meanRating (reviewsOf [c2wReview] 10)),
      reviewCount := (reviewsOf [c2wReview] 10).length }
    (by simp [c2wResult]) rfl
  have h2 := review_aggregates_recomputed.2 c2dStore 1 c2wReview c2dResult
    (by simp [c2dStore, c2wReview])
    rfl
    { id := 10, role := Role.user, rating := 0, reviewCount := 0 }
    (by simp [c2dResult]) rfl
  exact ⟨h1.1, h2.1⟩

/-- C2 counterexample: after the operation sequence submit 4, submit 4,
submit 5, submit 5, admin-delete the last review, user 10's stored rating is
the raw mean 13/3 of the remaining ratings [4,4,5], while the claim demands
the rounded value round1(13/3) = 4.3 — the deletion path stores the mean
without rounding. -/
theorem c2_delete_does_not_round_counterexample :
    c2Run = .ok c2Final ∧
    c2FinalRating = some ((13 : ℚ) / 3) ∧
    c2FinalMean = some ((13 : ℚ) / 3) ∧
    round1 ((13 : ℚ) / 3) ≠ (13 : ℚ) / 3 := by
  have hrun : c2Run = .ok c2Final := rfl
  have hmean : meanRating (reviewsOf c2FinalReviews 10) = (13 : ℚ) / 3 := by
    norm_num [meanRating, reviewsOf, c2FinalReviews, c2rev]
  refine ⟨hrun, ?_, ?_, ?_⟩
  · unfold c2FinalRating
    rw [hrun]
    simpa [c2Final, findUser] using hmean
  · unfold c2FinalMean
    rw [hrun]
    simpa [c2Final] using hmean
  · have hfloor : ⌊(13 : ℚ) / 3 * 10 + 1 / 2⌋ = 43 := by
      have : (13 : ℚ) / 3 * 10 + 1 / 2 = 263 / 6 := by norm_num
      rw [this, Int.floor_eq_iff]
      constructor <;> norm_num
    unfold round1 jsRound
    rw [hfloor]
    norm_num

/-- C8: a user who is neither the borrower nor the lender of an existing
lending request gets a 403 Forbidden both when reading the thread and when
posting a (nonempty) message to it, whatever their role and verification
state; the error return means the message set is untouched. -/
theorem thread_requires_participant (st : MsgStore) (caller : Caller)
    (lendingId : Nat) (lr : LendingReq)
    (hreq : findReq st.requests lendingId = some lr)
    (hb : lr.borrower ≠ caller.id) (hl : lr.lender ≠ caller.id)
    (now : Int) :
    errStatus (getThread st caller lendingId now) = some 403 ∧
    (∀ content : String, (jsTrim content).length ≠ 0 →
      errStatus (postMessage st caller lendingId content now) = some 403) := by
  constructor
  · unfold getThread
    split_ifs with h1
    · rw [hreq]
      dsimp only
      rw [if_pos ⟨hb, hl⟩]
      rfl
    · rfl
  · intro content hc
    unfold postMessage
    split_ifs with h1
    · rw [hreq]
      dsimp only
      rw [if_pos ⟨hb, hl⟩]
      rfl
    · rfl

/-- C8 witness: a verified admin who is not a participant of request 1
(borrower 1, lender 2) gets 403 on read and on post. -/
theorem thread_requires_participant_witness :
    errStatus (getThread
      ⟨[{ id := 1, item := 1, borrower := 1, lender := 2,
          startDate := 0, endDate := 1, status := LStatus.Accepted }], [], 1⟩
      ⟨3, Role.admin, true⟩ 1 0) = some 403 ∧
    errStatus (postMessage
      ⟨[{ id := 1, item := 1, borrower := 1, lender := 2,
          startDate := 0, endDate := 1, status := LStatus.Accepted }], [], 1⟩
      ⟨3, Role.admin, true⟩ 1 "hello" 0) = some 403 := by
  have h := thread_requires_participant
    ⟨[{ id := 1, item := 1, borrower := 1, lender := 2,
        startDate := 0, endDate := 1, status := LStatus.Accepted }], [], 1⟩
    ⟨3, Role.admin, true⟩ 1
    { id := 1, item := 1, borrower := 1, lender := 2,
      startDate := 0, endDate := 1, status := LStatus.Accepted }
    (by decide) (by decide) (by decide) 0
  exact ⟨h.1, h.2 "hello" (by decide)⟩

/-- C9: a successful thread read by participant P marks exactly the messages
of that thread that were sent by the other party and were unread, setting
`isRead := true` and `readAt`; every other message (other threads, P's own
messages, already-read messages) and every other field is unchanged.
Posting never touches the stored messages: it appends one new message,
unread, with no `readAt`.  (The sender hypothesis holds for every reachable
store because only participants can post to a thread.) -/
theorem read_marks_exactly_other_partys_unread (st : MsgStore) (caller : Caller)
    (lendingId : Nat) (now : Int) (lr : LendingReq)
    (hver : caller.isVerified = true)
    (hreq : findReq st.requests lendingId = some lr)
    (hpart : lr.borrower = caller.id ∨ lr.lender = caller.id)
    (hne : lr.borrower ≠ lr.lender)
    (hsenders : ∀ m ∈ st.messages, m.lendingRequest = lendingId →
      m.sender = lr.borrower ∨ m.sender = lr.lender) :
    getThread st caller lendingId now =
      .ok (st.messages.filter (fun m => m.lendingRequest = lendingId),
        { st with messages := st.messages.map (fun m =>
            if m.lendingRequest = lendingId ∧
               m.sender = otherParty lr caller.id ∧ m.isRead = false
            then { m with isRead := true, readAt := some now }
            else m) }) ∧
    (∀ (caller2 : Caller) (lid2 : Nat) (content : String) (now2 : Int)
       (m : Msg) (st' : MsgStore),
      postMessage st caller2 lid2 content now2 = .ok (m, st') →
      st'.messages = st.messages ++ [m] ∧ m.isRead = false ∧ m.readAt = none) := by
  have hother : ∀ s : Nat, (s = lr.borrower ∨ s = lr.lender) →
      ((s ≠ caller.id) ↔ s = otherParty lr caller.id) := by
    intro s hs
    unfold otherParty
    rcases hpart with hc | hc
    · rw [if_pos hc]
      constructor
      · intro hne2
        rcases hs with h | h
        · exact absurd (h.trans hc) hne2
        · exact h
      · intro h
        rw [h, ← hc]
        exact fun hlb => hne hlb.symm
    · have hbc : lr.borrower ≠ caller.id := fun h => hne (h.trans hc.symm)
      rw [if_neg hbc]
      constructor
      · intro hne2
        rcases hs with h | h
        · exact h
        · exact absurd (h.trans hc) hne2
      · intro h
        rw [h, ← hc]
        exact fun hlb => hne hlb
  constructor
  · unfold getThread
    have hnv : ¬¬(caller.isVerified = true) := not_not_intro hver
    rw [if_neg hnv, hreq]
    dsimp only
    have hcond2 : ¬(lr.borrower ≠ caller.id ∧ lr.lender ≠ caller.id) :=
      fun h => hpart.elim h.1 h.2
    rw [if_neg hcond2]
    have hmap : st.messages.map (fun m =>
        if m.lendingRequest = lendingId ∧ m.sender ≠ caller.id ∧ m.isRead = false
        then { m with isRead := true, readAt := some now } else m) =
      st.messages.map (fun m =>
        if m.lendingRequest = lendingId ∧
           m.sender = otherParty lr caller.id ∧ m.isRead = false
        then { m with isRead := true, readAt := some now } else m) := by
      refine List.map_congr_left (fun m hm => ?_)
      by_cases hml : m.lendingRequest = lendingId
      · have hcond : (m.lendingRequest = lendingId ∧ m.sender ≠ caller.id ∧
            m.isRead = false) ↔ (m.lendingRequest = lendingId ∧
            m.sender = otherParty lr caller.id ∧ m.isRead = false) := by
          have hs := hsenders m hm hml
          have h2 := hother m.sender (by tauto)
          tauto
        exact if_congr hcond rfl rfl
      · rw [if_neg (fun h => hml h.1), if_neg (fun h => hml h.1)]
    rw [hmap]
  · intro caller2 lid2 content now2 m st' h
    unfold postMessage at h
    by_cases hv : caller2.isVerified = true
    · rw [if_neg (not_not_intro hv)] at h
      by_cases hlen : (jsTrim content).length = 0
      · rw [if_pos hlen] at h
        exact absurd h (by simp)
      · rw [if_neg hlen] at h
        cases hfind : findReq st.requests lid2 with
        | none =>
          rw [hfind] at h
          exact absurd h (by simp)
        | some lr2 =>
          rw [hfind] at h
          dsimp only at h
          by_cases hng : lr2.borrower ≠ caller2.id ∧ lr2.lender ≠ caller2.id
          · rw [if_pos hng] at h
            exact absurd h (by simp)
          · rw [if_neg hng] at h
            injection h with h2
            have hm := congrArg Prod.fst h2
            have hst := congrArg Prod.snd h2
            dsimp only at hm hst
            rw [← hm, ← hst]
            exact ⟨rfl, rfl, rfl⟩
    · rw [if_pos (fun hc => hv hc)] at h
      exact absurd h (by simp)

/-- C9 witness: the borrower reads the thread — only the lender's unread
message flips to read (readAt set), the borrower's own unread message and the
already-read message are untouched; a posted message is appended unread. -/
theorem read_marks_exactly_other_partys_unread_witness :
    getThread c9Store ⟨1, Role.user, true⟩ 1 5 =
      .ok ([c9MsgA, c9MsgB, c9MsgC],
        ⟨[c9Req],
         [{ c9MsgA with isRead := true, readAt := some 5 }, c9MsgB, c9MsgC], 4⟩) ∧
    ({ requests := [c9Req], messages := [c9MsgA, c9MsgB, c9MsgC, c9NewMsg],
       nextMsgId := 5 } : MsgStore).messages = c9Store.messages ++ [c9NewMsg] ∧
    c9NewMsg.isRead = false ∧ c9NewMsg.readAt = none := by
  have h := read_marks_exactly_other_partys_unread c9Store ⟨1, Role.user, true⟩ 1 5
    c9Req rfl (by decide) (Or.inl rfl) (by decide) (by decide)
  exact ⟨h.1, h.2 ⟨1, Role.user, true⟩ 1 "hello" 6 c9NewMsg
    ⟨[c9Req], [c9MsgA, c9MsgB, c9MsgC, c9NewMsg], 5⟩ (by decide)⟩

/-- C10: an inactive item never appears in the public listing results — for
every combination of category, availability, campus, owner, price and search
filters, every sort order and every pagination — and fetching an inactive
item by id yields the very same 404 response ("Item not found") as fetching
an absent item. -/
theorem inactive_items_invisible :
    (∀ (items : List ItemRec) (f : ItemFilters) (le : ItemRec → ItemRec → Bool)
       (page limit : Nat) (it : ItemRec), it.isActive = false →
       it ∉ listItems items f le page limit) ∧
    (∀ (items : List ItemRec) (iid : Nat),
       findItem items iid = none →
       getItem items iid = .error ⟨404, "Item not found"⟩) ∧
    (∀ (items : List ItemRec) (iid : Nat) (it : ItemRec),
       findItem items iid = some it → it.isActive = false →
       getItem items iid = .error ⟨404, "Item not found"⟩) := by
  refine ⟨?_, ?_, ?_⟩
  · intro items f le page limit it hinact hmem
    unfold listItems at hmem
    have h1 : it ∈ (items.filter (matchesQuery f)).mergeSort le :=
      List.mem_of_mem_drop (List.mem_of_mem_take hmem)
    have h2 : it ∈ items.filter (matchesQuery f) :=
      (List.mergeSort_perm (items.filter (matchesQuery f)) le).mem_iff.mp h1
    have h3 : matchesQuery f it = true := List.of_mem_filter h2
    unfold matchesQuery at h3
    rw [hinact] at h3
    simp at h3
  · intro items iid hfind
    unfold getItem
    rw [hfind]
  · intro items iid it hfind hinact
    unfold getItem
    rw [hfind]
    dsimp only
    rw [if_pos hinact]

/-- C10 witness: the inactive item 1 is absent from every listing, and
fetching it gives the same 404 as fetching the absent id 2. -/
theorem inactive_items_invisible_witness :
    ({ id := 1, owner := 7, isActive := false } : ItemRec) ∉
      listItems [{ id := 1, owner := 7, isActive := false }] {} (fun _ _ => true) 1 20 ∧
    getItem [{ id := 1, owner := 7, isActive := false }] 1 =
      .error ⟨404, "Item not found"⟩ ∧
    getItem [{ id := 1, owner := 7, isActive := false }] 2 =
      .error ⟨404, "Item not found"⟩ := by
  refine ⟨?_, ?_, ?_⟩
  · exact inactive_items_invisible.1 _ {} (fun _ _ => true) 1 20 _ rfl
  · exact inactive_items_invisible.2.2 _ 1 { id := 1, owner := 7, isActive := false }
      (by decide) rfl
  · exact inactive_items_invisible.2.1 _ 2 (by decide)

/-- With pairwise-distinct ids, `find?` by a member's id returns exactly that
member. -/
theorem find?_id_eq_of_mem (reqs : List LendingReq) (hpw : UniqueIds reqs)
    (r : LendingReq) (hr : r ∈ reqs) :
    reqs.find? (fun x => x.id = r.id) = some r := by
  induction reqs with
  | nil => cases hr
  | cons a t ih =>
    rcases List.pairwise_cons.mp hpw with ⟨ha, hpt⟩
    by_cases hid : a.id = r.id
    · have : r = a := by
        rcases List.mem_cons.mp hr with h | h
        · exact h
        · exact absurd hid (ha r h)
      rw [this, List.find?_cons_of_pos _ (by simp)]
    · have hrt : r ∈ t := by
        rcases List.mem_cons.mp hr with h | h
        · exact absurd (h ▸ rfl) hid
        · exact h
      rw [List.find?_cons_of_neg _ (by simpa using hid)]
      exact ih hpt hrt

/-- With pairwise-distinct ids, any member bearing the id that `find?`
located equals the located record. -/
theorem eq_found_of_mem_id (reqs : List LendingReq) (hpw : UniqueIds reqs)
    (rid : Nat) (r0 r : LendingReq)
    (hfind : reqs.find? (fun x => x.id = rid) = some r0)
    (hr : r ∈ reqs) (hid : r.id = rid) : r = r0 := by
  have h2 := find?_id_eq_of_mem reqs hpw r hr
  rw [hid] at h2
  rw [h2] at hfind
  exact Option.some_inj.mp hfind

/-- Date overlap is symmetric. -/
theorem datesOverlap_comm (s1 e1 s2 e2 : Int) :
    datesOverlap s1 e1 s2 e2 = datesOverlap s2 e2 s1 e1 := by
  unfold datesOverlap
  by_cases h1 : s1 < e2 <;> by_cases h2 : s2 < e1 <;> simp [h1, h2]

/-- An unexcluded conflict check that comes back clean means no blocking
request on the item overlaps the window. -/
theorem hasConflict_none_false {reqs : List LendingReq} {item : Nat} {s e : Int}
    (h : hasConflict reqs item s e none = false) :
    ∀ r ∈ reqs, r.item = item → blocking r.status = true →
      datesOverlap r.startDate r.endDate s e = false := by
  intro r hr hitem hblock
  by_contra hov
  rw [Bool.not_eq_false] at hov
  have : hasConflict reqs item s e none = true := by
    unfold hasConflict
    rw [List.any_eq_true]
    exact ⟨r, hr, by simp [hitem, hblock, hov]⟩
  rw [h] at this
  cases this

/-- A clean conflict re-check excluding `rid` means no *other* blocking
request on the item overlaps the window. -/
theorem hasConflict_some_false {reqs : List LendingReq} {item : Nat} {s e : Int}
    {rid : Nat} (h : hasConflict reqs item s e (some rid) = false) :
    ∀ r ∈ reqs, r.id ≠ rid → r.item = item → blocking r.status = true →
      datesOverlap r.startDate r.endDate s e = false := by
  intro r hr hid hitem hblock
  by_contra hov
  rw [Bool.not_eq_false] at hov
  have : hasConflict reqs item s e (some rid) = true := by
    unfold hasConflict
    rw [List.any_eq_true]
    exact ⟨r, hr, by simp [hid, hitem, hblock, hov]⟩
  rw [h] at this
  cases this

/-- A status rewrite preserves ids. -/
theorem setStatus_id_pres (rid : Nat) (ns : LStatus) (a : LendingReq) :
    (if a.id = rid then { a with status := ns } else a).id = a.id := by
  by_cases c : a.id = rid
  · rw [if_pos c]
  · rw [if_neg c]

/-- A status rewrite preserves conflict-freedom provided the new status, when
blocking, replaces an already-blocking status on the targeted request. -/
theorem setStatus_conflictFree (reqs : List LendingReq) (rid : Nat) (ns : LStatus)
    (hcf : ConflictFreeL reqs)
    (hok : blocking ns = true → ∀ r ∈ reqs, r.id = rid → blocking r.status = true) :
    ConflictFreeL (setStatus reqs rid ns) := by
  have fact : ∀ a r' : LendingReq, a ∈ reqs →
      (if a.id = rid then { a with status := ns } else a) = r' →
      r'.id = a.id ∧ r'.item = a.item ∧ r'.startDate = a.startDate ∧
      r'.endDate = a.endDate ∧ (blocking r'.status = true → blocking a.status = true) := by
    intro a r' ha he
    by_cases c : a.id = rid
    · rw [if_pos c] at he
      subst he
      exact ⟨rfl, rfl, rfl, rfl, fun hb => hok hb a ha c⟩
    · rw [if_neg c] at he
      subst he
      exact ⟨rfl, rfl, rfl, rfl, id⟩
  intro r1 h1 r2 h2 hid hb1 hb2 hov
  rcases List.mem_map.mp h1 with ⟨a1, ha1, e1⟩
  rcases List.mem_map.mp h2 with ⟨a2, ha2, e2⟩
  obtain ⟨i1, it1, sd1, ed1, b1⟩ := fact a1 r1 ha1 e1
  obtain ⟨i2, it2, sd2, ed2, b2⟩ := fact a2 r2 ha2 e2
  refine hcf a1 ha1 a2 ha2 ?_ (b1 hb1) (b2 hb2) ?_
  · rw [← i1, ← i2]
    exact hid
  · unfold reqsOverlap at hov ⊢
    rw [← it1, ← it2, ← sd1, ← sd2, ← ed1, ← ed2]
    exact hov

/-- The full invariant is preserved by a status rewrite under the same side
condition (the catalog may change freely). -/
theorem bookingInv_setStatus (st : BookingState) (rid : Nat) (ns : LStatus)
    (hinv : BookingInv st)
    (hok : blocking ns = true → ∀ r ∈ st.requests, r.id = rid → blocking r.status = true) :
    BookingInv { st with requests := setStatus st.requests rid ns } := by
  refine ⟨⟨?_, ?_⟩, ?_⟩
  · intro r' hr'
    rcases List.mem_map.mp hr' with ⟨a, ha, he⟩
    rw [← he, setStatus_id_pres]
    exact hinv.1.1 a ha
  · unfold UniqueIds setStatus
    rw [List.pairwise_map]
    refine hinv.1.2.imp ?_
    intro a b hab
    rw [setStatus_id_pres, setStatus_id_pres]
    exact hab
  · exact setStatus_conflictFree st.requests rid ns hinv.2 hok

/-- CreateRequest preserves the booking invariant: the new Pending request is
fresh and was conflict-checked against every blocking request. -/
theorem inv_createRequest {st st' : BookingState} {b i : Nat} {s e now : Int}
    (h : createRequest st b i s e now = .ok st') (hinv : BookingInv st) :
    BookingInv st' := by
  unfold createRequest at h
  cases hit : findItem st.items i <;> rw [hit] at h
  · exact absurd h (by simp)
  case some it =>
    dsimp only at h
    split_ifs at h with h1 h2 h3 h4 h5 <;> simp only [reduceCtorEq, Except.ok.injEq] at h
    subst h
    have hconf : hasConflict st.requests i s e none = false := by
      simpa using h5
    refine ⟨⟨?_, ?_⟩, ?_⟩
    · intro r hr
      rcases List.mem_append.mp hr with hm | hm
      · exact Nat.lt_succ_of_lt (hinv.1.1 r hm)
      · rw [List.mem_singleton.mp hm]
        exact Nat.lt_succ_self _
    · unfold UniqueIds
      rw [List.pairwise_append]
      refine ⟨hinv.1.2, List.pairwise_singleton _ _, ?_⟩
      intro a ha c hc
      rw [List.mem_singleton.mp hc]
      exact Nat.ne_of_lt (hinv.1.1 a ha)
    · intro r1 hr1 r2 hr2 hid hb1 hb2 hov
      rcases List.mem_append.mp hr1 with hm1 | hm1 <;>
        rcases List.mem_append.mp hr2 with hm2 | hm2
      · exact hinv.2 r1 hm1 r2 hm2 hid hb1 hb2 hov
      · rw [List.mem_singleton.mp hm2] at hov
        rcases hov with ⟨hitem, hdov⟩
        have := hasConflict_none_false hconf r1 hm1 hitem hb1
        rw [hdov] at this
        cases this
      · rw [List.mem_singleton.mp hm1] at hov
        rcases hov with ⟨hitem, hdov⟩
        have := hasConflict_none_false hconf r2 hm2 hitem.symm hb2
        rw [datesOverlap_comm] at hdov
        rw [hdov] at this
        cases this
      · rw [List.mem_singleton.mp hm1, List.mem_singleton.mp hm2] at hid
        exact hid rfl

/-- Accept preserves the booking invariant: Pending → Accepted keeps the
request blocking, so no new overlap can appear. -/
theorem inv_acceptRequest {st st' : BookingState} {l rid : Nat}
    (h : acceptRequest st l rid = .ok st') (hinv : BookingInv st) :
    BookingInv st' := by
  unfold acceptRequest at h
  cases hfind : findReq st.requests rid <;> rw [hfind] at h
  · exact absurd h (by simp)
  case some r0 =>
    dsimp only at h
    split_ifs at h with h1 h2 h3 <;> simp only [reduceCtorEq, Except.ok.injEq] at h
    subst h
    refine bookingInv_setStatus st rid LStatus.Accepted hinv ?_
    intro _ r hr hid
    rw [eq_found_of_mem_id st.requests hinv.1.2 rid r0 r hfind hr hid]
    rw [not_not.mp h2]
    rfl

/-- Activate preserves the booking invariant: Accepted → Active keeps the
request blocking. -/
theorem inv_activateRequest {st st' : BookingState} {rid : Nat} {now : Int}
    (h : activateRequest st rid now = .ok st') (hinv : BookingInv st) :
    BookingInv st' := by
  unfold activateRequest at h
  cases hfind : findReq st.requests rid <;> rw [hfind] at h
  · exact absurd h (by simp)
  case some r0 =>
    dsimp only at h
    split_ifs at h with h1 h2 <;> simp only [reduceCtorEq, Except.ok.injEq] at h
    subst h
    refine bookingInv_setStatus st rid LStatus.Active hinv ?_
    intro _ r hr hid
    rw [eq_found_of_mem_id st.requests hinv.1.2 rid r0 r hfind hr hid]
    rw [not_not.mp h1]
    rfl

/-- Reject, Cancel and Complete preserve the booking invariant: they move a
request to a non-blocking status. -/
theorem inv_unblockingStep {st st' : BookingState}
    (h : (∃ l rid, rejectRequest st l rid = .ok st') ∨
         (∃ u rid, cancelRequest st u rid = .ok st') ∨
         (∃ rid now, completeRequest st rid now = .ok st'))
    (hinv : BookingInv st) : BookingInv st' := by
  rcases h with ⟨l, rid, h⟩ | ⟨u, rid, h⟩ | ⟨rid, now, h⟩
  · unfold rejectRequest at h
    cases hfind : findReq st.requests rid <;> rw [hfind] at h
    · exact absurd h (by simp)
    · dsimp only at h
      split_ifs at h <;> simp only [reduceCtorEq, Except.ok.injEq] at h
      subst h
      exact bookingInv_setStatus st rid LStatus.Rejected hinv
        (fun hb => by cases hb)
  · unfold cancelRequest at h
    cases hfind : findReq st.requests rid <;> rw [hfind] at h
    · exact absurd h (by simp)
    · dsimp only at h
      split_ifs at h <;> simp only [reduceCtorEq, Except.ok.injEq] at h
      subst h
      exact bookingInv_setStatus st rid LStatus.Cancelled hinv
        (fun hb => by cases hb)
  · unfold completeRequest at h
    cases hfind : findReq st.requests rid <;> rw [hfind] at h
    · exact absurd h (by simp)
    · dsimp only at h
      split_ifs at h <;> simp only [reduceCtorEq, Except.ok.injEq] at h
      subst h
      exact bookingInv_setStatus st rid LStatus.Completed hinv
        (fun hb => by cases hb)

/-- Every booking-engine step preserves the invariant. -/
theorem bookingInv_step {st st' : BookingState} (hs : BStep st st')
    (hinv : BookingInv st) : BookingInv st' := by
  cases hs with
  | create _ b i s e now h => exact inv_createRequest h hinv
  | accept _ l rid h => exact inv_acceptRequest h hinv
  | reject _ l rid h => exact inv_unblockingStep (Or.inl ⟨l, rid, h⟩) hinv
  | cancel _ u rid h => exact inv_unblockingStep (Or.inr (Or.inl ⟨u, rid, h⟩)) hinv
  | activate _ rid now h => exact inv_activateRequest h hinv
  | complete _ rid now h => exact inv_unblockingStep (Or.inr (Or.inr ⟨rid, now, h⟩)) hinv
  | catalog items' => exact hinv

/-- Every reachable booking state satisfies the invariant. -/
theorem bookingInv_reachable {st : BookingState} (h : ReachableB st) :
    BookingInv st := by
  induction h with
  | init =>
    refine ⟨⟨?_, ?_⟩, ?_⟩
    · intro r hr
      cases hr
    · exact List.Pairwise.nil
    · intro r1 hr1
      cases hr1
  | step _ hs ih => exact bookingInv_step hs ih

/-- C1: (i) every state reachable by booking-engine operations is
conflict-free — no two distinct requests on the same item in blocking
statuses (Pending/Accepted/Active) overlap; (ii) Accept re-runs the conflict
check at transition time: when another blocking request overlaps, Accept
fails with the 409 ConflictError; (iii) hence in a state holding two
conflicting Pending requests — which only a creation race can produce — the
Accept of either one fails with ConflictError, because the other Pending
request blocks it: at most one of two concurrent Accepts (here in fact
neither, until one request is cancelled or rejected) can ever succeed, and
two overlapping bookings are never both accepted. -/
theorem booking_conflict_freedom :
    (∀ st : BookingState, ReachableB st → ConflictFree st) ∧
    (∀ (st : BookingState) (l rid : Nat) (r : LendingReq),
      findReq st.requests rid = some r → r.lender = l → r.status = LStatus.Pending →
      hasConflict st.requests r.item r.startDate r.endDate (some rid) = true →
      acceptRequest st l rid =
        .error ⟨409, "Item is already booked for these dates"⟩) ∧
    (∀ (st : BookingState) (r1 r2 : LendingReq),
      UniqueIds st.requests → r1 ∈ st.requests → r2 ∈ st.requests →
      r1.id ≠ r2.id → r1.item = r2.item →
      r1.status = LStatus.Pending → r2.status = LStatus.Pending →
      datesOverlap r1.startDate r1.endDate r2.startDate r2.endDate = true →
      acceptRequest st r1.lender r1.id =
        .error ⟨409, "Item is already booked for these dates"⟩) := by
  have accept_conflict : ∀ (st : BookingState) (l rid : Nat) (r : LendingReq),
      findReq st.requests rid = some r → r.lender = l → r.status = LStatus.Pending →
      hasConflict st.requests r.item r.startDate r.endDate (some rid) = true →
      acceptRequest st l rid =
        .error ⟨409, "Item is already booked for these dates"⟩ := by
    intro st l rid r hfind hl hp hconf
    unfold acceptRequest
    rw [hfind]
    dsimp only
    rw [if_neg (not_not_intro hl), if_neg (not_not_intro hp), if_pos hconf]
  refine ⟨fun st h => (bookingInv_reachable h).2, accept_conflict, ?_⟩
  intro st r1 r2 hpw h1 h2 hid hitem hp1 hp2 hov
  have hfind1 : findReq st.requests r1.id = some r1 :=
    find?_id_eq_of_mem st.requests hpw r1 h1
  have hc : hasConflict st.requests r1.item r1.startDate r1.endDate (some r1.id) = true := by
    unfold hasConflict
    rw [List.any_eq_true]
    refine ⟨r2, h2, ?_⟩
    simp only [Bool.and_eq_true, decide_eq_true_eq]
    refine ⟨⟨⟨fun hc2 => hid (Eq.symm hc2), Eq.symm hitem⟩, ?_⟩, ?_⟩
    · rw [hp2]
      rfl
    · rw [← datesOverlap_comm]
      exact hov
  exact accept_conflict st r1.lender r1.id r1 hfind1 rfl hp1 hc

/-- C1 witness: the empty state is conflict-free; with two overlapping
Pending bookings of item 1 the Accept of either fails with the 409
ConflictError, and after one of them has been accepted the Accept of the
other still fails the re-run conflict check with the same ConflictError. -/
theorem booking_conflict_freedom_witness :
    ConflictFree initBooking ∧
    acceptRequest c1St 3 1 =
      .error ⟨409, "Item is already booked for these dates"⟩ ∧
    acceptRequest c1StB 3 2 =
      .error ⟨409, "Item is already booked for these dates"⟩ := by
  have h := booking_conflict_freedom
  refine ⟨h.1 initBooking ReachableB.init, ?_, ?_⟩
  · exact h.2.2 c1St c1r1 c1r2 (by unfold UniqueIds; decide) (by decide) (by decide)
      (by decide) (by decide) (by decide) (by decide) (by decide)
  · exact h.2.1 c1StB 3 2 c1r2 (by decide) (by decide) (by decide) (by decide)

end CampusCrate
